import Mathlib

/-!
Verification of the square-images compositing pipeline.

The repository (src/src/app.rs, src/src/main.rs) is a yew front end whose only
domain logic is the `convert` / `convert_files` pair: decode a tile image and a
batch of source images, build a square canvas of side `max(width, height)`,
tile the background image across it with `image::imageops::tile`, overlay the
source with `image::imageops::overlay`, and re-encode as PNG.

This file shallowly embeds that pipeline.  Pure arithmetic (offsets, bounds,
the tiling grid) is translated directly from the source; the third-party
`image` crate operations that the source calls (`overlay`, `tile`,
`Pixel::blend`, `ImageFormat::from_mime_type`, decoding, PNG encoding) are
modelled from the crate's published behaviour, with doc comments marking each
model.  Machine integers are Nat/Int with explicit wrapping or saturation
where the Rust semantics require it.  Rust panics (`unwrap`, the `step_by`
zero-step assertion) are modelled as a dedicated error constructor so that
"panics" and "returns a checked error" are distinguishable propositions.
-/

/-- An RGBA pixel with 8-bit channels, as in `image::Rgba<u8>`.  Channel
values are Nats; all pixels produced by the model stay below 256. -/
structure Rgba where
  r : Nat
  g : Nat
  b : Nat
  a : Nat
deriving DecidableEq

/-- Modelled from the image crate (third-party dependency): `Pixel::blend`
for `Rgba<u8>`.  The crate returns `self` untouched when the foreground
alpha is zero, replaces it outright when the foreground alpha is 255, and
otherwise alpha-composites with f32 arithmetic; the f32 branch is modelled
with exact rationals, truncating to Nat as the crate's `NumCast` conversion
does.  All theorems below only ever evaluate the two exact branches. -/
def Rgba.blend (self other : Rgba) : Rgba :=
  if other.a = 0 then self
  else if other.a = 255 then other
  else
    let maxT : ℚ := 255
    let bgR : ℚ := (self.r : ℚ) / maxT
    let bgG : ℚ := (self.g : ℚ) / maxT
    let bgB : ℚ := (self.b : ℚ) / maxT
    let bgA : ℚ := (self.a : ℚ) / maxT
    let fgR : ℚ := (other.r : ℚ) / maxT
    let fgG : ℚ := (other.g : ℚ) / maxT
    let fgB : ℚ := (other.b : ℚ) / maxT
    let fgA : ℚ := (other.a : ℚ) / maxT
    let alphaFinal : ℚ := bgA + (1 - bgA) * fgA
    if alphaFinal = 0 then self
    else
      let outRA : ℚ := fgR * fgA + bgR * bgA * (1 - fgA)
      let outGA : ℚ := fgG * fgA + bgG * bgA * (1 - fgA)
      let outBA : ℚ := fgB * fgA + bgB * bgA * (1 - fgA)
      { r := (Rat.floor (maxT * (outRA / alphaFinal))).toNat
        g := (Rat.floor (maxT * (outGA / alphaFinal))).toNat
        b := (Rat.floor (maxT * (outBA / alphaFinal))).toNat
        a := (Rat.floor (maxT * alphaFinal)).toNat }

/-- A decoded bitmap (the spec's RasterImage, the code's `DynamicImage` /
`RgbaImage`): a width, a height, and a pixel grid in RGBA layout.  The grid
is a total function; the crate only ever reads it inside bounds. -/
structure RasterImage where
  width : Nat
  height : Nat
  pixel : Nat → Nat → Rgba

/-- `image::RgbaImage::new(w, h)`: a w x h buffer with every channel of
every pixel zeroed, i.e. fully transparent black. -/
def RgbaImage.new (w h : Nat) : RasterImage :=
  { width := w, height := h, pixel := fun _ _ => ⟨0, 0, 0, 0⟩ }

def U32_MOD : Nat := 4294967296

def I64_MAX : Int := 9223372036854775807

def I64_MIN : Int := -9223372036854775808

/-- Rust `i64::saturating_add`. -/
def i64sadd (a b : Int) : Int := max I64_MIN (min I64_MAX (a + b))

/-- Rust `i64::saturating_mul(-1)`. -/
def i64smulNeg (a : Int) : Int := max I64_MIN (min I64_MAX (-a))

/-- Rust `Ord::clamp` on i64 (the call sites always have lo ≤ hi). -/
def clampI (v lo hi : Int) : Int := max lo (min hi v)

structure OverlayBounds where
  originBottomX : Nat
  originBottomY : Nat
  originTopX : Nat
  originTopY : Nat
  rangeWidth : Nat
  rangeHeight : Nat
deriving DecidableEq

/-- Modelled from the image crate (third-party dependency):
`imageops::overlay_bounds_ext`, which clips the top image's placement
rectangle against the bottom image.  The `as u32` casts are `Int.toNat`;
the values cast are already clamped into `[0, dimension]`. -/
def overlay_bounds_ext (bw bh tw th : Nat) (x y : Int) : OverlayBounds :=
  if x > (bw : Int) ∨ y > (bh : Int) ∨ i64sadd x (tw : Int) < 0 ∨ i64sadd y (th : Int) < 0 then
    ⟨0, 0, 0, 0, 0, 0⟩
  else
    let maxX := i64sadd x (tw : Int)
    let maxY := i64sadd y (th : Int)
    let maxInX := (clampI maxX 0 (bw : Int)).toNat
    let maxInY := (clampI maxY 0 (bh : Int)).toNat
    let obX := (clampI x 0 (bw : Int)).toNat
    let obY := (clampI y 0 (bh : Int)).toNat
    let otX := (clampI (i64smulNeg x) 0 (tw : Int)).toNat
    let otY := (clampI (i64smulNeg y) 0 (th : Int)).toNat
    ⟨obX, obY, otX, otY, maxInX - obX, maxInY - obY⟩

/-- Modelled from the image crate (third-party dependency):
`imageops::overlay(bottom, top, x, y)`.  The crate loops over the clipped
range, reads the bottom pixel, blends the top pixel over it, and writes it
back; each location is written at most once and read only before its write,
so the loop is the pointwise update below. -/
def overlay (bottom top : RasterImage) (x y : Int) : RasterImage :=
  let bds := overlay_bounds_ext bottom.width bottom.height top.width top.height x y
  { bottom with
    pixel := fun px py =>
      if bds.originBottomX ≤ px ∧ px < bds.originBottomX + bds.rangeWidth ∧
         bds.originBottomY ≤ py ∧ py < bds.originBottomY + bds.rangeHeight then
        (bottom.pixel px py).blend
          (top.pixel (bds.originTopX + (px - bds.originBottomX))
                     (bds.originTopY + (py - bds.originBottomY)))
      else bottom.pixel px py }

/-- The values yielded by Rust's `(0..n).step_by(s)` for `s ≠ 0`:
`0, s, 2*s, ...` strictly below `n`. -/
def stepBy (n s : Nat) : List Nat :=
  (List.range ((n + s - 1) / s)).map (fun k => k * s)

/-- Modelled from the image crate (third-party dependency): the nested loop
body of `imageops::tile(bottom, top)` — an `overlay` of `top` at every grid
origin stepped by the top image's dimensions. -/
def gridFold (bottom top : RasterImage) : RasterImage :=
  (stepBy bottom.width top.width).foldl
    (fun acc (x0 : Nat) =>
      (stepBy bottom.height top.height).foldl
        (fun acc2 (y0 : Nat) => overlay acc2 top (x0 : Int) (y0 : Int)) acc)
    bottom

/-- The model's error universe.  `rustPanic` is an uncontrolled Rust panic
(`unwrap` on None/Err, the `step_by` zero-step assertion); the remaining
constructors are the checked, recoverable error kinds the specification
names (`DecodeError`, `PreconditionError`), present so that claims about
them are statable. -/
inductive Failure where
  | rustPanic (msg : String)
  | decodeError
  | preconditionError
deriving DecidableEq

/-- Modelled from the image crate (third-party dependency):
`imageops::tile(bottom, top)`.  `(0..bottom.width).step_by(top.width)`
asserts a nonzero step when the iterator is built, so a zero tile width
always panics; the inner iterator is built only when the outer range is
nonempty, so a zero tile height panics exactly when the canvas width is
positive.  Otherwise the nested overlay loop `gridFold` runs. -/
def tileOp (bottom top : RasterImage) : Except Failure RasterImage :=
  if top.width = 0 ∨ (0 < bottom.width ∧ top.height = 0) then
    .error (.rustPanic "assertion failed: step != 0")
  else
    .ok (gridFold bottom top)

/-- Modelled from the image crate (third-party dependency): the
`ImageFormat` enumeration, restricted to the variants reachable from
`ImageFormat::from_mime_type`. -/
inductive ImageFormat where
  | png | jpeg | gif | webp | pnm | tiff | tga | dds | bmp | ico | hdr | openexr | avif
deriving DecidableEq

/-- Modelled from the image crate (third-party dependency):
`ImageFormat::from_mime_type`, a string match over the supported MIME
types returning `None` for anything else. -/
def ImageFormat.from_mime_type (mime : String) : Option ImageFormat :=
  if mime = "image/avif" then some .avif
  else if mime = "image/jpeg" then some .jpeg
  else if mime = "image/png" then some .png
  else if mime = "image/gif" then some .gif
  else if mime = "image/webp" then some .webp
  else if mime = "image/tiff" then some .tiff
  else if mime = "image/x-targa" ∨ mime = "image/x-tga" then some .tga
  else if mime = "image/vnd-ms.dds" then some .dds
  else if mime = "image/bmp" then some .bmp
  else if mime = "image/x-icon" then some .ico
  else if mime = "image/vnd.radiance" then some .hdr
  else if mime = "image/x-exr" then some .openexr
  else if mime = "image/x-portable-bitmap" ∨ mime = "image/x-portable-graymap" ∨
          mime = "image/x-portable-pixmap" ∨ mime = "image/x-portable-anymap" then some .pnm
  else none

/-- Modelled from the spec: an uploaded byte buffer, represented
symbolically by its decode behaviour — either a valid encoding of one
decoded `RasterImage` in one concrete format, or bytes that decode in no
supported format.  The codecs themselves are third-party and opaque to the
repository; only this decode behaviour of a buffer is observable in it. -/
inductive FileData where
  | encoded (fmt : ImageFormat) (img : RasterImage)
  | invalid

/-- The checked decode failure (`image::ImageError` on the Rust side, the
spec's `DecodeError`). -/
inductive DecodeError where
  | invalidData
deriving DecidableEq

/-- Modelled from the image crate (third-party dependency):
`image::load_from_memory_with_format` — succeeds exactly when the buffer
is a valid encoding of the requested format, returning the decoded image,
and otherwise returns a recoverable error. -/
def load_from_memory_with_format (data : FileData) (fmt : ImageFormat) :
    Except DecodeError RasterImage :=
  match data with
  | .encoded f img => if f = fmt then .ok img else .error .invalidData
  | .invalid => .error .invalidData

/-- Modelled from the image crate (third-party dependency):
`image::load_from_memory`, which guesses the format from the bytes, so it
succeeds on any valid encoding of a supported format. -/
def load_from_memory (data : FileData) : Except DecodeError RasterImage :=
  match data with
  | .encoded _ img => .ok img
  | .invalid => .error .invalidData

/-- Rust's `Option::unwrap()`: the value, or a panic. -/
def unwrapOption (o : Option α) : Except Failure α :=
  match o with
  | some a => .ok a
  | none => .error (.rustPanic "called `Option::unwrap()` on a `None` value")

/-- Rust's `Result::unwrap()`: the value, or a panic. -/
def unwrapResult (r : Except DecodeError α) : Except Failure α :=
  match r with
  | .ok a => .ok a
  | .error _ => .error (.rustPanic "called `Result::unwrap()` on an `Err` value")

inductive OutputFormat where
  | png
deriving DecidableEq

/-- Modelled from the image crate (third-party dependency):
`DynamicImage::write_to(buffer, ImageOutputFormat::Png)`.  PNG is lossless
for RGBA8 data, so the produced byte buffer is represented by its format
tag together with the exact image it encodes. -/
structure EncodedBuffer where
  format : OutputFormat
  image : RasterImage

def write_to_png (img : RasterImage) : EncodedBuffer :=
  { format := .png, image := img }

/-- The `FileDetails` struct of app.rs / main.rs: filename, MIME type
string, and the raw byte buffer. -/
structure FileDetails where
  name : String
  file_type : String
  data : FileData

/-- The file handed back through `gloo_file::File::new_with_options(name,
bytes, Some(mime), None)`: a name, a MIME tag, and the encoded buffer. -/
structure OutputFile where
  name : String
  file_type : String
  data : EncodedBuffer

/-- The observable outcome of `convert_files`: either the
`Msg::ConvertedFiles` payload or `Msg::NoOp`. -/
inductive MsgResult where
  | convertedFiles (files : List OutputFile)
  | noOp

/-- Rust release-mode `u32` wrapping subtraction, written with explicit mod
`2^32`; callers pass values below `2^32`. -/
def u32_wrapping_sub (a b : Nat) : Nat :=
  (a + (U32_MOD - b % U32_MOD)) % U32_MOD

/-- `App::convert` of src/src/app.rs lines 358-381 (identical to
src/src/main.rs lines 320-343 up to logging): unwrap the MIME-type lookup,
unwrap the decode, allocate a `max x max` RGBA canvas where `max =
width.max(height)`, tile the background over it, overlay the source at
`((max - width) / 2, (max - height) / 2)` (u32 arithmetic cast to i64),
PNG-encode, and return a file with the original name and MIME tag. -/
def convert (file : FileDetails) (tile : RasterImage) : Except Failure OutputFile :=
  match unwrapOption (ImageFormat.from_mime_type file.file_type) with
  | .error e => .error e
  | .ok fmt =>
  match unwrapResult (load_from_memory_with_format file.data fmt) with
  | .error e => .error e
  | .ok old =>
  let width := old.width
  let height := old.height
  let mx := Nat.max width height
  match tileOp (RgbaImage.new mx mx) tile with
  | .error e => .error e
  | .ok tiled =>
  let composited := overlay tiled old
    ((u32_wrapping_sub mx width / 2 : Nat) : Int)
    ((u32_wrapping_sub mx height / 2 : Nat) : Int)
  .ok { name := file.name, file_type := file.file_type, data := write_to_png composited }

/-- The for-loop of `convert_files` that pushes `convert(file, tile)` for
each file: results in caller order, aborted wholesale by the first panic
(a Rust panic unwinds out of the loop). -/
def convertLoop (files : List FileDetails) (tileImg : RasterImage) :
    Except Failure (List OutputFile) :=
  match files with
  | [] => .ok []
  | f :: rest =>
    match convert f tileImg with
    | .error e => .error e
    | .ok o =>
      match convertLoop rest tileImg with
      | .error e => .error e
      | .ok os => .ok (o :: os)

/-- `App::convert_files` of src/src/main.rs lines 302-318: bail out while a
conversion is in flight, otherwise unwrap the tile's MIME lookup and
decode (panicking on failure) and convert every file against the decoded
tile. -/
def Main.convert_files (files : List FileDetails) (tile : Option FileDetails)
    (converting : Bool) : Except Failure MsgResult :=
  if converting then .ok .noOp
  else
    match tile with
    | some t =>
      match unwrapOption (ImageFormat.from_mime_type t.file_type) with
      | .error e => .error e
      | .ok fmt =>
      match unwrapResult (load_from_memory_with_format t.data fmt) with
      | .error e => .error e
      | .ok tileImg =>
      match convertLoop files tileImg with
      | .error e => .error e
      | .ok result => .ok (.convertedFiles result)
    | none => .ok .noOp

/-- Rounding as f64 `.round()` does for the nonnegative values that reach
it: half away from zero. -/
def roundQ (q : ℚ) : Nat := (Rat.floor (q + 1 / 2)).toNat

/-- Modelled from the image crate (third-party dependency):
`resize_dimensions(w, h, nw, nh, false)` — the aspect-ratio-preserving
target size fitting inside nw x nh.  The crate computes the ratio in f64;
it is modelled with exact rationals here (division by a zero dimension,
f64 infinity in the crate, is rational zero here; decoded images never
have zero dimensions).  No theorem below depends on these values. -/
def resize_dimensions (width height nwidth nheight : Nat) (fill : Bool) : Nat × Nat :=
  let wratio : ℚ := (nwidth : ℚ) / (width : ℚ)
  let hratio : ℚ := (nheight : ℚ) / (height : ℚ)
  let ratio := if fill then max wratio hratio else min wratio hratio
  let nw := Nat.max (roundQ ((width : ℚ) * ratio)) 1
  let nh := Nat.max (roundQ ((height : ℚ) * ratio)) 1
  let umax : Nat := 4294967295
  if umax < nw then
    let r2 : ℚ := (umax : ℚ) / (width : ℚ)
    (umax, Nat.max (roundQ ((height : ℚ) * r2)) 1)
  else if umax < nh then
    let r2 : ℚ := (umax : ℚ) / (height : ℚ)
    (Nat.max (roundQ ((width : ℚ) * r2)) 1, umax)
  else (nw, nh)

/-- Modelled from the image crate (third-party dependency): the
nearest-neighbour sampling performed by `imageops::resize` with
`FilterType::Nearest`, expressed with exact rationals in place of the
crate's f32 kernel machinery.  No theorem below depends on these values. -/
def sample_nearest (img : RasterImage) (nw nh : Nat) : RasterImage :=
  { width := nw
    height := nh
    pixel := fun x y =>
      img.pixel
        (Nat.min (Rat.floor (((x : ℚ) + 1 / 2) * (img.width : ℚ) / (nw : ℚ))).toNat
          (img.width - 1))
        (Nat.min (Rat.floor (((y : ℚ) + 1 / 2) * (img.height : ℚ) / (nh : ℚ))).toNat
          (img.height - 1)) }

/-- Modelled from the image crate (third-party dependency):
`DynamicImage::resize(nw, nh, FilterType::Nearest)` — identity when the
size already matches, otherwise nearest-neighbour sampling at the
aspect-preserving dimensions. -/
def DynamicImage.resize (img : RasterImage) (nwidth nheight : Nat) : RasterImage :=
  if nwidth = img.width ∧ nheight = img.height then img
  else
    let wh := resize_dimensions img.width img.height nwidth nheight false
    if wh.1 = img.width ∧ wh.2 = img.height then img
    else sample_nearest img wh.1 wh.2

/-- `DynamicImage::to_rgba8` followed by `DynamicImage::ImageRgba8`: the
model already stores every image in RGBA layout, so this is the
identity. -/
def DynamicImage.to_rgba8 (img : RasterImage) : RasterImage := img

/-- `App::convert_files` of src/src/app.rs lines 328-356: bail out while
converting, decode the tile with `load_from_memory` and drop the whole
batch (`Msg::NoOp`) if that fails, else resize the tile to fit 256 x 256
with nearest filtering, re-wrap as RGBA, and convert every file. -/
def App.convert_files (files : List FileDetails) (tile : Option FileDetails)
    (converting : Bool) : Except Failure MsgResult :=
  if converting then .ok .noOp
  else
    match tile with
    | some t =>
      match load_from_memory t.data with
      | .ok tileImg =>
        let tileImg := DynamicImage.to_rgba8 (DynamicImage.resize tileImg 256 256)
        match convertLoop files tileImg with
        | .error e => .error e
        | .ok result => .ok (.convertedFiles result)
      | .error _ => .ok .noOp
    | none => .ok .noOp

lemma Rgba.blend_alpha_zero (p q : Rgba) (h : q.a = 0) : p.blend q = p := by
  simp [Rgba.blend, h]

lemma Rgba.blend_alpha_full (p q : Rgba) (h : q.a = 255) : p.blend q = q := by
  simp [Rgba.blend, h]

lemma overlay_width (b t : RasterImage) (x y : Int) : (overlay b t x y).width = b.width := rfl

lemma overlay_height (b t : RasterImage) (x y : Int) : (overlay b t x y).height = b.height := rfl

lemma foldl_overlay_width (top : RasterImage) (xo : Int) (L : List Nat) :
    ∀ b : RasterImage, (L.foldl (fun a (y0 : Nat) => overlay a top xo (y0 : Int)) b).width = b.width := by
  induction L with
  | nil => intro b; rfl
  | cons h t ih => intro b; rw [List.foldl_cons, ih]; rfl

lemma foldl_overlay_height (top : RasterImage) (xo : Int) (L : List Nat) :
    ∀ b : RasterImage, (L.foldl (fun a (y0 : Nat) => overlay a top xo (y0 : Int)) b).height = b.height := by
  induction L with
  | nil => intro b; rfl
  | cons h t ih => intro b; rw [List.foldl_cons, ih]; rfl

lemma foldl_grid_width (top : RasterImage) (Ly : List Nat) (Lx : List Nat) :
    ∀ b : RasterImage,
      (Lx.foldl (fun acc (x0 : Nat) =>
        Ly.foldl (fun a2 (y0 : Nat) => overlay a2 top (x0 : Int) (y0 : Int)) acc) b).width = b.width := by
  induction Lx with
  | nil => intro b; rfl
  | cons h t ih => intro b; rw [List.foldl_cons, ih, foldl_overlay_width]

lemma foldl_grid_height (top : RasterImage) (Ly : List Nat) (Lx : List Nat) :
    ∀ b : RasterImage,
      (Lx.foldl (fun acc (x0 : Nat) =>
        Ly.foldl (fun a2 (y0 : Nat) => overlay a2 top (x0 : Int) (y0 : Int)) acc) b).height = b.height := by
  induction Lx with
  | nil => intro b; rfl
  | cons h t ih => intro b; rw [List.foldl_cons, ih, foldl_overlay_height]

lemma gridFold_width (b t : RasterImage) : (gridFold b t).width = b.width := by
  unfold gridFold
  exact foldl_grid_width t (stepBy b.height t.height) (stepBy b.width t.width) b

lemma gridFold_height (b t : RasterImage) : (gridFold b t).height = b.height := by
  unfold gridFold
  exact foldl_grid_height t (stepBy b.height t.height) (stepBy b.width t.width) b

lemma overlay_bounds_nonneg (bw bh tw th ox oy : Nat)
    (hox : ox ≤ bw) (hoy : oy ≤ bh)
    (hbw : bw < U32_MOD) (hbh : bh < U32_MOD) (htw : tw < U32_MOD) (hth : th < U32_MOD) :
    overlay_bounds_ext bw bh tw th (ox : Int) (oy : Int) =
      ⟨ox, oy, 0, 0, min (ox + tw) bw - ox, min (oy + th) bh - oy⟩ := by
  have hbw' : bw < 4294967296 := hbw
  have hbh' : bh < 4294967296 := hbh
  have htw' : tw < 4294967296 := htw
  have hth' : th < 4294967296 := hth
  have hIa : I64_MAX = 9223372036854775807 := rfl
  have hIb : I64_MIN = -9223372036854775808 := rfl
  unfold overlay_bounds_ext
  rw [if_neg]
  · simp only [i64sadd, i64smulNeg, clampI, hIa, hIb, OverlayBounds.mk.injEq]
    refine ⟨?_, ?_, ?_, ?_, ?_, ?_⟩ <;> omega
  · simp only [i64sadd, hIa, hIb, not_or]
    refine ⟨by omega, by omega, by omega, by omega⟩

lemma overlay_pixel (b t : RasterImage) (ox oy x y : Nat)
    (hox : ox ≤ b.width) (hoy : oy ≤ b.height)
    (hbw : b.width < U32_MOD) (hbh : b.height < U32_MOD)
    (htw : t.width < U32_MOD) (hth : t.height < U32_MOD) :
    (overlay b t (ox : Int) (oy : Int)).pixel x y =
      if ox ≤ x ∧ x < min (ox + t.width) b.width ∧ oy ≤ y ∧ y < min (oy + t.height) b.height then
        (b.pixel x y).blend (t.pixel (x - ox) (y - oy))
      else b.pixel x y := by
  have hbds := overlay_bounds_nonneg b.width b.height t.width t.height ox oy hox hoy hbw hbh htw hth
  simp only [overlay, hbds]
  have e1 : ox + (min (ox + t.width) b.width - ox) = min (ox + t.width) b.width := by omega
  have e2 : oy + (min (oy + t.height) b.height - oy) = min (oy + t.height) b.height := by omega
  rw [e1, e2]
  simp

lemma foldl_col_pixel (top : RasterImage) (hth : top.height ≠ 0)
    (htwB : top.width < U32_MOD) (hthB : top.height < U32_MOD) :
    ∀ (m : Nat) (b : RasterImage) (x0 x y : Nat),
      x0 ≤ b.width → b.width < U32_MOD → b.height < U32_MOD →
      (∀ k, k < m → k * top.height < b.height) →
      (((List.range m).map (fun k => k * top.height)).foldl
          (fun a (y0 : Nat) => overlay a top (x0 : Int) (y0 : Int)) b).pixel x y =
        if x0 ≤ x ∧ x < min (x0 + top.width) b.width ∧ y / top.height < m ∧ y < b.height then
          (b.pixel x y).blend (top.pixel (x - x0) (y % top.height))
        else b.pixel x y := by
  intro m
  induction m with
  | zero =>
    intro b x0 x y _ _ _ _
    simp
  | succ n ih =>
    intro b x0 x y hx0 hbw hbh hk
    rw [List.range_succ, List.map_append, List.foldl_append]
    simp only [List.map_cons, List.map_nil, List.foldl_cons, List.foldl_nil]
    set prev := ((List.range n).map (fun k => k * top.height)).foldl
      (fun a (y0 : Nat) => overlay a top (x0 : Int) (y0 : Int)) b with hprevdef
    have hpw : prev.width = b.width :=
      foldl_overlay_width top (x0 : Int) ((List.range n).map (fun k => k * top.height)) b
    have hph : prev.height = b.height :=
      foldl_overlay_height top (x0 : Int) ((List.range n).map (fun k => k * top.height)) b
    have hoyle : n * top.height ≤ b.height := le_of_lt (hk n (Nat.lt_succ_self n))
    have hov := overlay_pixel prev top x0 (n * top.height) x y
      (by rw [hpw]; exact hx0) (by rw [hph]; exact hoyle)
      (by rw [hpw]; exact hbw) (by rw [hph]; exact hbh) htwB hthB
    rw [hpw, hph] at hov
    rw [hov]
    have hprev := ih b x0 x y hx0 hbw hbh (fun k hkn => hk k (Nat.lt_succ_of_lt hkn))
    rw [hprev]
    have hdm : top.height * (y / top.height) + y % top.height = y := Nat.div_add_mod y top.height
    have hr : y % top.height < top.height := Nat.mod_lt _ (Nat.pos_of_ne_zero hth)
    by_cases hxc : x0 ≤ x ∧ x < min (x0 + top.width) b.width
    · rcases Nat.lt_trichotomy (y / top.height) n with he | he | he
      · -- this origin row is strictly below the query row block
        have hlt : y < n * top.height :=
          calc y < top.height * (y / top.height) + top.height := by omega
          _ = top.height * (y / top.height + 1) := by ring
          _ ≤ top.height * n := Nat.mul_le_mul_left _ he
          _ = n * top.height := Nat.mul_comm _ _
        rw [if_neg (by omega)]
        by_cases hyb : y < b.height
        · rw [if_pos ⟨hxc.1, hxc.2, he, hyb⟩, if_pos ⟨hxc.1, hxc.2, Nat.lt_succ_of_lt he, hyb⟩]
        · rw [if_neg (by omega), if_neg (by omega)]
      · -- the query row lies exactly in this origin's block
        have hge : n * top.height ≤ y := by
          have h1 : top.height * (y / top.height) ≤ y := by omega
          rw [he, Nat.mul_comm] at h1
          exact h1
        have hlt2 : y < n * top.height + top.height := by
          have h1 : y < top.height * (y / top.height) + top.height := by omega
          rw [he, Nat.mul_comm top.height n] at h1
          exact h1
        have hmod : y % top.height = y - n * top.height := by
          have h1 : y % top.height = y - top.height * (y / top.height) := by omega
          rw [he, Nat.mul_comm top.height n] at h1
          exact h1
        by_cases hyb : y < b.height
        · rw [if_pos ⟨hxc.1, hxc.2, hge, by omega⟩]
          rw [if_neg (by omega)]
          rw [if_pos ⟨hxc.1, hxc.2, by omega, hyb⟩]
          rw [hmod]
        · rw [if_neg (by omega), if_neg (by omega), if_neg (by omega)]
      · -- the query row is below this block entirely
        have hge2 : n * top.height + top.height ≤ y := by
          have h2 : top.height * (n + 1) ≤ top.height * (y / top.height) :=
            Nat.mul_le_mul_left _ he
          have h3 : top.height * (y / top.height) ≤ y := by omega
          calc n * top.height + top.height = top.height * (n + 1) := by ring
          _ ≤ top.height * (y / top.height) := h2
          _ ≤ y := h3
        rw [if_neg (by omega), if_neg (by omega), if_neg (by omega)]
    · rw [if_neg (by tauto), if_neg (by tauto), if_neg (by tauto)]

lemma foldl_grid_pixel (top : RasterImage) (htw : top.width ≠ 0) (hth : top.height ≠ 0)
    (htwB : top.width < U32_MOD) (hthB : top.height < U32_MOD) :
    ∀ (nn m : Nat) (b : RasterImage) (x y : Nat),
      b.width < U32_MOD → b.height < U32_MOD →
      (∀ k, k < nn → k * top.width < b.width) →
      (∀ k, k < m → k * top.height < b.height) →
      (∀ yy, yy < b.height → yy / top.height < m) →
      (((List.range nn).map (fun k => k * top.width)).foldl
          (fun acc (x0 : Nat) =>
            ((List.range m).map (fun k => k * top.height)).foldl
              (fun a (y0 : Nat) => overlay a top (x0 : Int) (y0 : Int)) acc) b).pixel x y =
        if x / top.width < nn ∧ x < b.width ∧ y < b.height then
          (b.pixel x y).blend (top.pixel (x % top.width) (y % top.height))
        else b.pixel x y := by
  intro nn
  induction nn with
  | zero =>
    intro m b x y _ _ _ _ _
    simp
  | succ n ih =>
    intro m b x y hbw hbh hkx hky hcov
    rw [List.range_succ, List.map_append, List.foldl_append]
    simp only [List.map_cons, List.map_nil, List.foldl_cons, List.foldl_nil]
    set prev := ((List.range n).map (fun k => k * top.width)).foldl
      (fun acc (x0 : Nat) =>
        ((List.range m).map (fun k => k * top.height)).foldl
          (fun a (y0 : Nat) => overlay a top (x0 : Int) (y0 : Int)) acc) b with hprevdef
    have hpw : prev.width = b.width :=
      foldl_grid_width top ((List.range m).map (fun k => k * top.height))
        ((List.range n).map (fun k => k * top.width)) b
    have hph : prev.height = b.height :=
      foldl_grid_height top ((List.range m).map (fun k => k * top.height))
        ((List.range n).map (fun k => k * top.width)) b
    have hx0le : n * top.width ≤ b.width := le_of_lt (hkx n (Nat.lt_succ_self n))
    have hcol := foldl_col_pixel top hth htwB hthB m prev (n * top.width) x y
      (by rw [hpw]; exact hx0le) (by rw [hpw]; exact hbw) (by rw [hph]; exact hbh)
      (fun k hkm => by rw [hph]; exact hky k hkm)
    rw [hpw, hph] at hcol
    rw [hcol]
    have hprev := ih m b x y hbw hbh (fun k hkn => hkx k (Nat.lt_succ_of_lt hkn)) hky hcov
    rw [hprev]
    have hdm : top.width * (x / top.width) + x % top.width = x := Nat.div_add_mod x top.width
    have hr : x % top.width < top.width := Nat.mod_lt _ (Nat.pos_of_ne_zero htw)
    by_cases hyb : y < b.height
    · have hym : y / top.height < m := hcov y hyb
      rcases Nat.lt_trichotomy (x / top.width) n with he | he | he
      · have hlt : x < n * top.width :=
          calc x < top.width * (x / top.width) + top.width := by omega
          _ = top.width * (x / top.width + 1) := by ring
          _ ≤ top.width * n := Nat.mul_le_mul_left _ he
          _ = n * top.width := Nat.mul_comm _ _
        rw [if_neg (by omega)]
        by_cases hxb : x < b.width
        · rw [if_pos ⟨he, hxb, hyb⟩, if_pos ⟨Nat.lt_succ_of_lt he, hxb, hyb⟩]
        · rw [if_neg (by omega), if_neg (by omega)]
      · have hge : n * top.width ≤ x := by
          have h1 : top.width * (x / top.width) ≤ x := by omega
          rw [he, Nat.mul_comm] at h1
          exact h1
        have hlt2 : x < n * top.width + top.width := by
          have h1 : x < top.width * (x / top.width) + top.width := by omega
          rw [he, Nat.mul_comm top.width n] at h1
          exact h1
        have hmod : x % top.width = x - n * top.width := by
          have h1 : x % top.width = x - top.width * (x / top.width) := by omega
          rw [he, Nat.mul_comm top.width n] at h1
          exact h1
        by_cases hxb : x < b.width
        · rw [if_pos ⟨hge, by omega, hym, hyb⟩]
          rw [if_neg (by omega)]
          rw [if_pos ⟨by omega, hxb, hyb⟩]
          rw [hmod]
        · rw [if_neg (by omega), if_neg (by omega), if_neg (by omega)]
      · have hge2 : n * top.width + top.width ≤ x := by
          have h2 : top.width * (n + 1) ≤ top.width * (x / top.width) :=
            Nat.mul_le_mul_left _ he
          have h3 : top.width * (x / top.width) ≤ x := by omega
          calc n * top.width + top.width = top.width * (n + 1) := by ring
          _ ≤ top.width * (x / top.width) := h2
          _ ≤ x := h3
        rw [if_neg (by omega), if_neg (by omega), if_neg (by omega)]
    · rw [if_neg (by tauto), if_neg (by tauto), if_neg (by tauto)]

lemma div_lt_ceilCount (y n s : Nat) (hs : s ≠ 0) (hy : y < n) :
    y / s < (n + s - 1) / s := by
  have h1 : n + s - 1 = (n - 1) + s := by omega
  rw [h1, Nat.add_div_right _ (Nat.pos_of_ne_zero hs)]
  have h2 : y / s ≤ (n - 1) / s := Nat.div_le_div_right (by omega)
  omega

lemma ceilCount_origin_lt (n s k : Nat) (hs : s ≠ 0) (hk : k < (n + s - 1) / s) :
    k * s < n := by
  rcases Nat.eq_zero_or_pos n with h0 | h0
  · subst h0
    have hz : (0 + s - 1) / s = 0 := Nat.div_eq_of_lt (by omega)
    omega
  · have h1 : n + s - 1 = (n - 1) + s := by omega
    rw [h1, Nat.add_div_right _ (Nat.pos_of_ne_zero hs)] at hk
    have h2 : k ≤ (n - 1) / s := by omega
    have h3 : k * s ≤ (n - 1) / s * s := Nat.mul_le_mul_right s h2
    have h4 : (n - 1) / s * s ≤ n - 1 := Nat.div_mul_le_self (n - 1) s
    omega

lemma gridFold_new_pixel (tile : RasterImage) (s x y : Nat)
    (htw : tile.width ≠ 0) (hth : tile.height ≠ 0)
    (hs : s < U32_MOD) (htwB : tile.width < U32_MOD) (hthB : tile.height < U32_MOD)
    (hx : x < s) (hy : y < s) :
    (gridFold (RgbaImage.new s s) tile).pixel x y =
      (Rgba.mk 0 0 0 0).blend (tile.pixel (x % tile.width) (y % tile.height)) := by
  show (((List.range ((s + tile.width - 1) / tile.width)).map (fun k => k * tile.width)).foldl
      (fun acc (x0 : Nat) =>
        ((List.range ((s + tile.height - 1) / tile.height)).map (fun k => k * tile.height)).foldl
          (fun a (y0 : Nat) => overlay a tile (x0 : Int) (y0 : Int)) acc)
      (RgbaImage.new s s)).pixel x y = _
  rw [foldl_grid_pixel tile htw hth htwB hthB ((s + tile.width - 1) / tile.width)
    ((s + tile.height - 1) / tile.height) (RgbaImage.new s s) x y hs hs
    (fun k hk => ceilCount_origin_lt s tile.width k htw hk)
    (fun k hk => ceilCount_origin_lt s tile.height k hth hk)
    (fun yy hyy => div_lt_ceilCount yy s tile.height hth hyy)]
  rw [if_pos ⟨div_lt_ceilCount x s tile.width htw hx, hx, hy⟩]
  rfl

lemma u32_wrapping_sub_eq (a b : Nat) (hba : b ≤ a) (ha : a < U32_MOD) :
    u32_wrapping_sub a b = a - b := by
  have ha' : a < 4294967296 := ha
  simp only [u32_wrapping_sub, U32_MOD]
  omega

lemma convert_eq (name mime : String) (fmt : ImageFormat) (img tile : RasterImage)
    (hfmt : ImageFormat.from_mime_type mime = some fmt)
    (htw : tile.width ≠ 0) (hth : tile.height ≠ 0) :
    convert ⟨name, mime, .encoded fmt img⟩ tile =
      .ok ⟨name, mime, write_to_png (overlay
        (gridFold (RgbaImage.new (Nat.max img.width img.height)
          (Nat.max img.width img.height)) tile)
        img
        ((u32_wrapping_sub (Nat.max img.width img.height) img.width / 2 : Nat) : Int)
        ((u32_wrapping_sub (Nat.max img.width img.height) img.height / 2 : Nat) : Int))⟩ := by
  unfold convert
  rw [hfmt]
  simp only [unwrapOption, unwrapResult, load_from_memory_with_format, if_true,
    eq_self_iff_true]
  simp only [tileOp]
  rw [if_neg (by push_neg; exact ⟨htw, fun _ => hth⟩)]

/-- C1: for every source image that decodes to a RasterImage `img` and every
nonzero-dimension tile, `convert` produces an output image whose width and
height both equal `max img.width img.height` — the output canvas is square
with side the larger source dimension. -/
theorem convert_output_square (name mime : String) (fmt : ImageFormat)
    (img tile : RasterImage)
    (hfmt : ImageFormat.from_mime_type mime = some fmt)
    (htw : tile.width ≠ 0) (hth : tile.height ≠ 0) :
    ∃ out, convert ⟨name, mime, .encoded fmt img⟩ tile = .ok out ∧
      out.data.image.width = Nat.max img.width img.height ∧
      out.data.image.height = Nat.max img.width img.height := by
  refine ⟨_, convert_eq name mime fmt img tile hfmt htw hth, ?_, ?_⟩
  · show (overlay (gridFold (RgbaImage.new (Nat.max img.width img.height)
      (Nat.max img.width img.height)) tile) img _ _).width = Nat.max img.width img.height
    rw [overlay_width, gridFold_width]
    rfl
  · show (overlay (gridFold (RgbaImage.new (Nat.max img.width img.height)
      (Nat.max img.width img.height)) tile) img _ _).height = Nat.max img.width img.height
    rw [overlay_height, gridFold_height]
    rfl

/-- Witness for C1 at a concrete 1 x 2 source and 1 x 1 tile. -/
theorem convert_output_square_witness :
    ∃ out, convert ⟨"img.png", "image/png",
        .encoded .png ⟨1, 2, fun _ _ => ⟨0, 0, 255, 255⟩⟩⟩
        ⟨1, 1, fun _ _ => ⟨255, 0, 0, 255⟩⟩ = .ok out ∧
      out.data.image.width = Nat.max 1 2 ∧
      out.data.image.height = Nat.max 1 2 :=
  convert_output_square "img.png" "image/png" .png
    ⟨1, 2, fun _ _ => ⟨0, 0, 255, 255⟩⟩ ⟨1, 1, fun _ _ => ⟨255, 0, 0, 255⟩⟩
    (by decide) (by decide) (by decide)

/-- C9: every successfully converted source yields an output file whose name
is the source filename unchanged, whose MIME tag is either `image/png` or
the original source MIME tag echoed (the code echoes the original), and
whose byte buffer is PNG-encoded. -/
theorem convert_output_metadata (name mime : String) (fmt : ImageFormat)
    (img tile : RasterImage)
    (hfmt : ImageFormat.from_mime_type mime = some fmt)
    (htw : tile.width ≠ 0) (hth : tile.height ≠ 0) :
    ∃ out, convert ⟨name, mime, .encoded fmt img⟩ tile = .ok out ∧
      out.name = name ∧
      (out.file_type = "image/png" ∨ out.file_type = mime) ∧
      out.data.format = .png :=
  ⟨_, convert_eq name mime fmt img tile hfmt htw hth, rfl, Or.inr rfl, rfl⟩

/-- Witness for C9 at a concrete 2 x 1 JPEG source and 1 x 1 tile. -/
theorem convert_output_metadata_witness :
    ∃ out, convert ⟨"photo.jpg", "image/jpeg",
        .encoded .jpeg ⟨2, 1, fun _ _ => ⟨5, 6, 7, 255⟩⟩⟩
        ⟨1, 1, fun _ _ => ⟨0, 255, 0, 255⟩⟩ = .ok out ∧
      out.name = "photo.jpg" ∧
      (out.file_type = "image/png" ∨ out.file_type = "image/jpeg") ∧
      out.data.format = .png :=
  convert_output_metadata "photo.jpg" "image/jpeg" .jpeg
    ⟨2, 1, fun _ _ => ⟨5, 6, 7, 255⟩⟩ ⟨1, 1, fun _ _ => ⟨0, 255, 0, 255⟩⟩
    (by decide) (by decide) (by decide)

/-- C10: because the canvas side is `width.max height`, the u32 subtractions
`max - width` and `max - height` in `convert` never wrap: the wrapping
subtraction agrees with exact Nat subtraction, and both i64 offsets handed
to the overlay are nonnegative. -/
theorem offsets_no_underflow (w h : Nat) (hw : w < U32_MOD) (hh : h < U32_MOD) :
    u32_wrapping_sub (Nat.max w h) w = Nat.max w h - w ∧
    u32_wrapping_sub (Nat.max w h) h = Nat.max w h - h ∧
    (0 : Int) ≤ ((u32_wrapping_sub (Nat.max w h) w / 2 : Nat) : Int) ∧
    (0 : Int) ≤ ((u32_wrapping_sub (Nat.max w h) h / 2 : Nat) : Int) :=
  ⟨u32_wrapping_sub_eq _ _ (Nat.le_max_left w h) (Nat.max_lt.mpr ⟨hw, hh⟩),
   u32_wrapping_sub_eq _ _ (Nat.le_max_right w h) (Nat.max_lt.mpr ⟨hw, hh⟩),
   by omega, by omega⟩

/-- Witness for C10 at concrete dimensions 3 x 5. -/
theorem offsets_no_underflow_witness :
    u32_wrapping_sub (Nat.max 3 5) 3 = Nat.max 3 5 - 3 ∧
    u32_wrapping_sub (Nat.max 3 5) 5 = Nat.max 3 5 - 5 ∧
    (0 : Int) ≤ ((u32_wrapping_sub (Nat.max 3 5) 3 / 2 : Nat) : Int) ∧
    (0 : Int) ≤ ((u32_wrapping_sub (Nat.max 3 5) 5 / 2 : Nat) : Int) :=
  offsets_no_underflow 3 5 (by decide) (by decide)

/-- C5 (amended): a tile with zero width — or zero height alongside a
positive canvas — makes `convert` terminate with the `step_by` zero-step
assertion panic; it does not hang, loop forever, or divide by zero, but it
also does not return the checked `PreconditionError` the claim names. -/
theorem convert_zero_tile_panics (name mime : String) (fmt : ImageFormat)
    (img tile : RasterImage)
    (hfmt : ImageFormat.from_mime_type mime = some fmt)
    (hdeg : tile.width = 0 ∨ (0 < Nat.max img.width img.height ∧ tile.height = 0)) :
    convert ⟨name, mime, .encoded fmt img⟩ tile =
      .error (.rustPanic "assertion failed: step != 0") := by
  unfold convert
  rw [hfmt]
  simp only [unwrapOption, unwrapResult, load_from_memory_with_format, if_true,
    eq_self_iff_true]
  simp only [tileOp, RgbaImage.new]
  rw [if_pos hdeg]

/-- Witness for the amended C5 at a concrete 3 x 0 tile. -/
theorem convert_zero_tile_panics_witness :
    convert ⟨"s2.png", "image/png", .encoded .png ⟨2, 1, fun _ _ => ⟨4, 4, 4, 255⟩⟩⟩
        ⟨3, 0, fun _ _ => ⟨8, 8, 8, 255⟩⟩ =
      .error (.rustPanic "assertion failed: step != 0") :=
  convert_zero_tile_panics "s2.png" "image/png" .png
    ⟨2, 1, fun _ _ => ⟨4, 4, 4, 255⟩⟩ ⟨3, 0, fun _ _ => ⟨8, 8, 8, 255⟩⟩
    (by decide) (Or.inr ⟨by decide, rfl⟩)

/-- Counterexample for C5 as stated: with a 0 x 5 tile, `convert` fails
with a Rust panic, which is not the checked `PreconditionError` value the
claim requires. -/
theorem zero_tile_not_precondition_cex :
    convert ⟨"src.png", "image/png", .encoded .png ⟨1, 1, fun _ _ => ⟨1, 2, 3, 255⟩⟩⟩
        ⟨0, 5, fun _ _ => ⟨0, 0, 0, 0⟩⟩ =
      .error (.rustPanic "assertion failed: step != 0") ∧
    Failure.rustPanic "assertion failed: step != 0" ≠ Failure.preconditionError :=
  ⟨rfl, by decide⟩

lemma convert_pixel (name mime : String) (fmt : ImageFormat) (img tile : RasterImage)
    (hfmt : ImageFormat.from_mime_type mime = some fmt)
    (htw : tile.width ≠ 0) (hth : tile.height ≠ 0)
    (himw : img.width < U32_MOD) (himh : img.height < U32_MOD)
    (htwB : tile.width < U32_MOD) (hthB : tile.height < U32_MOD)
    (px py : Nat)
    (hpx : px < Nat.max img.width img.height) (hpy : py < Nat.max img.width img.height) :
    ∃ out, convert ⟨name, mime, .encoded fmt img⟩ tile = .ok out ∧
      out.data.image.pixel px py =
        if (Nat.max img.width img.height - img.width) / 2 ≤ px ∧
           px < (Nat.max img.width img.height - img.width) / 2 + img.width ∧
           (Nat.max img.width img.height - img.height) / 2 ≤ py ∧
           py < (Nat.max img.width img.height - img.height) / 2 + img.height then
          ((Rgba.mk 0 0 0 0).blend (tile.pixel (px % tile.width) (py % tile.height))).blend
            (img.pixel (px - (Nat.max img.width img.height - img.width) / 2)
                       (py - (Nat.max img.width img.height - img.height) / 2))
        else (Rgba.mk 0 0 0 0).blend (tile.pixel (px % tile.width) (py % tile.height)) := by
  refine ⟨_, convert_eq name mime fmt img tile hfmt htw hth, ?_⟩
  have hmx : Nat.max img.width img.height < U32_MOD := Nat.max_lt.mpr ⟨himw, himh⟩
  have hwle : img.width ≤ Nat.max img.width img.height := Nat.le_max_left _ _
  have hhle : img.height ≤ Nat.max img.width img.height := Nat.le_max_right _ _
  show (overlay (gridFold (RgbaImage.new (Nat.max img.width img.height)
      (Nat.max img.width img.height)) tile) img _ _).pixel px py = _
  rw [u32_wrapping_sub_eq _ _ hwle hmx, u32_wrapping_sub_eq _ _ hhle hmx]
  have hgw : (gridFold (RgbaImage.new (Nat.max img.width img.height)
      (Nat.max img.width img.height)) tile).width = Nat.max img.width img.height :=
    gridFold_width _ _
  have hgh : (gridFold (RgbaImage.new (Nat.max img.width img.height)
      (Nat.max img.width img.height)) tile).height = Nat.max img.width img.height :=
    gridFold_height _ _
  have hdxle : (Nat.max img.width img.height - img.width) / 2 ≤ Nat.max img.width img.height := by
    omega
  have hdyle : (Nat.max img.width img.height - img.height) / 2 ≤ Nat.max img.width img.height := by
    omega
  have hov := overlay_pixel
    (gridFold (RgbaImage.new (Nat.max img.width img.height)
      (Nat.max img.width img.height)) tile) img
    ((Nat.max img.width img.height - img.width) / 2)
    ((Nat.max img.width img.height - img.height) / 2) px py
    (by rw [hgw]; exact hdxle) (by rw [hgh]; exact hdyle)
    (by rw [hgw]; exact hmx) (by rw [hgh]; exact hmx) himw himh
  rw [hgw, hgh] at hov
  rw [hov]
  have hminw : min ((Nat.max img.width img.height - img.width) / 2 + img.width)
      (Nat.max img.width img.height) =
      (Nat.max img.width img.height - img.width) / 2 + img.width := by omega
  have hminh : min ((Nat.max img.width img.height - img.height) / 2 + img.height)
      (Nat.max img.width img.height) =
      (Nat.max img.width img.height - img.height) / 2 + img.height := by omega
  rw [hminw, hminh]
  rw [gridFold_new_pixel tile (Nat.max img.width img.height) px py htw hth hmx htwB hthB hpx hpy]

/-- C2 (amended): the source is composited onto the canvas by per-pixel
alpha blending (`imageops::overlay` calls `Pixel::blend`), not by a straight
overwrite: every covered canvas pixel becomes `blend(background, source)`.
A fully opaque source pixel does replace the background exactly, but a
fully transparent source pixel leaves the tiled background visible. -/
theorem convert_overlay_blend (name mime : String) (fmt : ImageFormat)
    (img tile : RasterImage)
    (hfmt : ImageFormat.from_mime_type mime = some fmt)
    (htw : tile.width ≠ 0) (hth : tile.height ≠ 0)
    (himw : img.width < U32_MOD) (himh : img.height < U32_MOD)
    (htwB : tile.width < U32_MOD) (hthB : tile.height < U32_MOD)
    (px py : Nat)
    (hinx1 : (Nat.max img.width img.height - img.width) / 2 ≤ px)
    (hinx2 : px < (Nat.max img.width img.height - img.width) / 2 + img.width)
    (hiny1 : (Nat.max img.width img.height - img.height) / 2 ≤ py)
    (hiny2 : py < (Nat.max img.width img.height - img.height) / 2 + img.height) :
    ∃ out, convert ⟨name, mime, .encoded fmt img⟩ tile = .ok out ∧
      out.data.image.pixel px py =
        ((Rgba.mk 0 0 0 0).blend (tile.pixel (px % tile.width) (py % tile.height))).blend
          (img.pixel (px - (Nat.max img.width img.height - img.width) / 2)
                     (py - (Nat.max img.width img.height - img.height) / 2)) ∧
      ((img.pixel (px - (Nat.max img.width img.height - img.width) / 2)
          (py - (Nat.max img.width img.height - img.height) / 2)).a = 255 →
        out.data.image.pixel px py =
          img.pixel (px - (Nat.max img.width img.height - img.width) / 2)
                    (py - (Nat.max img.width img.height - img.height) / 2)) ∧
      ((img.pixel (px - (Nat.max img.width img.height - img.width) / 2)
          (py - (Nat.max img.width img.height - img.height) / 2)).a = 0 →
        out.data.image.pixel px py =
          (Rgba.mk 0 0 0 0).blend (tile.pixel (px % tile.width) (py % tile.height))) := by
  have hwle : img.width ≤ Nat.max img.width img.height := Nat.le_max_left _ _
  have hhle : img.height ≤ Nat.max img.width img.height := Nat.le_max_right _ _
  obtain ⟨out, hok, hpix⟩ := convert_pixel name mime fmt img tile hfmt htw hth
    himw himh htwB hthB px py (by omega) (by omega)
  rw [if_pos ⟨hinx1, hinx2, hiny1, hiny2⟩] at hpix
  refine ⟨out, hok, hpix, ?_, ?_⟩
  · intro ha
    rw [hpix, Rgba.blend_alpha_full _ _ ha]
  · intro ha
    rw [hpix, Rgba.blend_alpha_zero _ _ ha]

/-- Witness for the amended C2 at a concrete opaque 1 x 1 source over a
1 x 1 red tile, at canvas pixel (0, 0). -/
theorem convert_overlay_blend_witness :
    ∃ out, convert ⟨"b.png", "image/png", .encoded .png ⟨1, 1, fun _ _ => ⟨0, 0, 255, 255⟩⟩⟩
        ⟨1, 1, fun _ _ => ⟨255, 0, 0, 255⟩⟩ = .ok out ∧
      out.data.image.pixel 0 0 =
        ((Rgba.mk 0 0 0 0).blend ((⟨1, 1, fun _ _ => ⟨255, 0, 0, 255⟩⟩ :
          RasterImage).pixel (0 % 1) (0 % 1))).blend
          ((⟨1, 1, fun _ _ => ⟨0, 0, 255, 255⟩⟩ : RasterImage).pixel
            (0 - (Nat.max 1 1 - 1) / 2) (0 - (Nat.max 1 1 - 1) / 2)) ∧
      (((⟨1, 1, fun _ _ => ⟨0, 0, 255, 255⟩⟩ : RasterImage).pixel
          (0 - (Nat.max 1 1 - 1) / 2) (0 - (Nat.max 1 1 - 1) / 2)).a = 255 →
        out.data.image.pixel 0 0 =
          (⟨1, 1, fun _ _ => ⟨0, 0, 255, 255⟩⟩ : RasterImage).pixel
            (0 - (Nat.max 1 1 - 1) / 2) (0 - (Nat.max 1 1 - 1) / 2)) ∧
      (((⟨1, 1, fun _ _ => ⟨0, 0, 255, 255⟩⟩ : RasterImage).pixel
          (0 - (Nat.max 1 1 - 1) / 2) (0 - (Nat.max 1 1 - 1) / 2)).a = 0 →
        out.data.image.pixel 0 0 =
          (Rgba.mk 0 0 0 0).blend ((⟨1, 1, fun _ _ => ⟨255, 0, 0, 255⟩⟩ :
            RasterImage).pixel (0 % 1) (0 % 1))) :=
  convert_overlay_blend "b.png" "image/png" .png
    ⟨1, 1, fun _ _ => ⟨0, 0, 255, 255⟩⟩ ⟨1, 1, fun _ _ => ⟨255, 0, 0, 255⟩⟩
    (by decide) (by decide) (by decide) (by decide) (by decide) (by decide) (by decide)
    0 0 (by decide) (by decide) (by decide) (by decide)

/-- Counterexample for C2 as stated: a fully transparent 1 x 1 source over
an opaque red 1 x 1 tile.  The claim demands the covered canvas pixel equal
the source pixel (9, 9, 9, 0) exactly; the code's alpha blending leaves the
red background (255, 0, 0, 255) instead. -/
theorem convert_overwrite_cex :
    (convert ⟨"t.png", "image/png", .encoded .png ⟨1, 1, fun _ _ => ⟨9, 9, 9, 0⟩⟩⟩
        ⟨1, 1, fun _ _ => ⟨255, 0, 0, 255⟩⟩).toOption.map
      (fun o => o.data.image.pixel 0 0) = some ⟨255, 0, 0, 255⟩ ∧
    (⟨255, 0, 0, 255⟩ : Rgba) ≠ ⟨9, 9, 9, 0⟩ :=
  ⟨rfl, by decide⟩

/-- C3: the region where the source lands on the canvas has top-left corner
exactly `((max - width) / 2, (max - height) / 2)` with truncating integer
division — inside it the canvas pixel is the source blended over the
background, outside it the background is untouched — and for odd
differences the leftover padding pixel sits on the bottom/right side:
the right/bottom padding equals the left/top padding plus `(max - dim) % 2`. -/
theorem convert_centering (name mime : String) (fmt : ImageFormat)
    (img tile : RasterImage)
    (hfmt : ImageFormat.from_mime_type mime = some fmt)
    (htw : tile.width ≠ 0) (hth : tile.height ≠ 0)
    (himw : img.width < U32_MOD) (himh : img.height < U32_MOD)
    (htwB : tile.width < U32_MOD) (hthB : tile.height < U32_MOD)
    (px py : Nat)
    (hpx : px < Nat.max img.width img.height) (hpy : py < Nat.max img.width img.height) :
    ∃ out, convert ⟨name, mime, .encoded fmt img⟩ tile = .ok out ∧
      out.data.image.pixel px py =
        (if (Nat.max img.width img.height - img.width) / 2 ≤ px ∧
            px < (Nat.max img.width img.height - img.width) / 2 + img.width ∧
            (Nat.max img.width img.height - img.height) / 2 ≤ py ∧
            py < (Nat.max img.width img.height - img.height) / 2 + img.height then
          ((Rgba.mk 0 0 0 0).blend (tile.pixel (px % tile.width) (py % tile.height))).blend
            (img.pixel (px - (Nat.max img.width img.height - img.width) / 2)
                       (py - (Nat.max img.width img.height - img.height) / 2))
        else (Rgba.mk 0 0 0 0).blend (tile.pixel (px % tile.width) (py % tile.height))) ∧
      (Nat.max img.width img.height - img.width) -
          (Nat.max img.width img.height - img.width) / 2 =
        (Nat.max img.width img.height - img.width) / 2 +
          (Nat.max img.width img.height - img.width) % 2 ∧
      (Nat.max img.width img.height - img.height) -
          (Nat.max img.width img.height - img.height) / 2 =
        (Nat.max img.width img.height - img.height) / 2 +
          (Nat.max img.width img.height - img.height) % 2 := by
  obtain ⟨out, hok, hpix⟩ := convert_pixel name mime fmt img tile hfmt htw hth
    himw himh htwB hthB px py hpx hpy
  exact ⟨out, hok, hpix, by omega, by omega⟩

/-- Witness for C3 at a concrete 2 x 3 source (odd width difference) and
2 x 2 tile, at canvas pixel (2, 1). -/
theorem convert_centering_witness :
    ∃ out, convert ⟨"c.png", "image/png", .encoded .png ⟨2, 3, fun _ _ => ⟨1, 1, 1, 255⟩⟩⟩
        ⟨2, 2, fun _ _ => ⟨2, 2, 2, 255⟩⟩ = .ok out ∧
      out.data.image.pixel 2 1 =
        (if (Nat.max 2 3 - 2) / 2 ≤ 2 ∧ 2 < (Nat.max 2 3 - 2) / 2 + 2 ∧
            (Nat.max 2 3 - 3) / 2 ≤ 1 ∧ 1 < (Nat.max 2 3 - 3) / 2 + 3 then
          ((Rgba.mk 0 0 0 0).blend ((⟨2, 2, fun _ _ => ⟨2, 2, 2, 255⟩⟩ :
            RasterImage).pixel (2 % 2) (1 % 2))).blend
            ((⟨2, 3, fun _ _ => ⟨1, 1, 1, 255⟩⟩ : RasterImage).pixel
              (2 - (Nat.max 2 3 - 2) / 2) (1 - (Nat.max 2 3 - 3) / 2))
        else (Rgba.mk 0 0 0 0).blend ((⟨2, 2, fun _ _ => ⟨2, 2, 2, 255⟩⟩ :
          RasterImage).pixel (2 % 2) (1 % 2))) ∧
      (Nat.max 2 3 - 2) - (Nat.max 2 3 - 2) / 2 =
        (Nat.max 2 3 - 2) / 2 + (Nat.max 2 3 - 2) % 2 ∧
      (Nat.max 2 3 - 3) - (Nat.max 2 3 - 3) / 2 =
        (Nat.max 2 3 - 3) / 2 + (Nat.max 2 3 - 3) % 2 :=
  convert_centering "c.png" "image/png" .png
    ⟨2, 3, fun _ _ => ⟨1, 1, 1, 255⟩⟩ ⟨2, 2, fun _ _ => ⟨2, 2, 2, 255⟩⟩
    (by decide) (by decide) (by decide) (by decide) (by decide) (by decide) (by decide)
    2 1 (by decide) (by decide)

/-- C4 (amended): at every canvas coordinate not covered by the overlaid
source, the background pixel is the tile pixel at `(x mod tile.width,
y mod tile.height)` alpha-blended onto the transparent canvas, which equals
that tile pixel exactly whenever the tile pixel is fully opaque; partial
tiles at the right/bottom canvas edges are cropped, never scaled.  Here
`tile` is the image handed to `convert` (in the app.rs variant that is the
decoded tile after the 256 x 256 nearest-neighbour fit in
`convert_files`). -/
theorem convert_background_tiling_opaque (name mime : String) (fmt : ImageFormat)
    (img tile : RasterImage)
    (hfmt : ImageFormat.from_mime_type mime = some fmt)
    (htw : tile.width ≠ 0) (hth : tile.height ≠ 0)
    (himw : img.width < U32_MOD) (himh : img.height < U32_MOD)
    (htwB : tile.width < U32_MOD) (hthB : tile.height < U32_MOD)
    (px py : Nat)
    (hpx : px < Nat.max img.width img.height) (hpy : py < Nat.max img.width img.height)
    (houtside : ¬((Nat.max img.width img.height - img.width) / 2 ≤ px ∧
        px < (Nat.max img.width img.height - img.width) / 2 + img.width ∧
        (Nat.max img.width img.height - img.height) / 2 ≤ py ∧
        py < (Nat.max img.width img.height - img.height) / 2 + img.height))
    (hopq : (tile.pixel (px % tile.width) (py % tile.height)).a = 255) :
    ∃ out, convert ⟨name, mime, .encoded fmt img⟩ tile = .ok out ∧
      out.data.image.pixel px py = tile.pixel (px % tile.width) (py % tile.height) := by
  obtain ⟨out, hok, hpix⟩ := convert_pixel name mime fmt img tile hfmt htw hth
    himw himh htwB hthB px py hpx hpy
  rw [if_neg houtside] at hpix
  rw [Rgba.blend_alpha_full _ _ hopq] at hpix
  exact ⟨out, hok, hpix⟩

/-- Witness for the amended C4 at a concrete 1 x 2 source and opaque 1 x 1
tile, at the uncovered canvas pixel (1, 1). -/
theorem convert_background_tiling_opaque_witness :
    ∃ out, convert ⟨"d.png", "image/png", .encoded .png ⟨1, 2, fun _ _ => ⟨0, 0, 255, 255⟩⟩⟩
        ⟨1, 1, fun _ _ => ⟨10, 20, 30, 255⟩⟩ = .ok out ∧
      out.data.image.pixel 1 1 =
        (⟨1, 1, fun _ _ => ⟨10, 20, 30, 255⟩⟩ : RasterImage).pixel (1 % 1) (1 % 1) :=
  convert_background_tiling_opaque "d.png" "image/png" .png
    ⟨1, 2, fun _ _ => ⟨0, 0, 255, 255⟩⟩ ⟨1, 1, fun _ _ => ⟨10, 20, 30, 255⟩⟩
    (by decide) (by decide) (by decide) (by decide) (by decide) (by decide) (by decide)
    1 1 (by decide) (by decide) (by decide) (by decide)

/-- Counterexample for C4 as stated: a 1 x 1 tile whose only pixel is
transparent red (7, 0, 0, 0) behind a 1 x 2 source.  At the uncovered
canvas pixel (1, 0) the claim demands the tile pixel (7, 0, 0, 0); the
blending of the tile over the transparent canvas leaves (0, 0, 0, 0). -/
theorem background_not_tile_pixel_cex :
    (convert ⟨"s.png", "image/png", .encoded .png ⟨1, 2, fun _ _ => ⟨0, 0, 255, 255⟩⟩⟩
        ⟨1, 1, fun _ _ => ⟨7, 0, 0, 0⟩⟩).toOption.map
      (fun o => o.data.image.pixel 1 0) = some ⟨0, 0, 0, 0⟩ ∧
    (RasterImage.mk 1 1 (fun _ _ => ⟨7, 0, 0, 0⟩)).pixel (1 % 1) (0 % 1) = ⟨7, 0, 0, 0⟩ ∧
    (⟨0, 0, 0, 0⟩ : Rgba) ≠ ⟨7, 0, 0, 0⟩ :=
  ⟨rfl, rfl, by decide⟩

lemma convert_invalid_errors (f : FileDetails) (tile : RasterImage)
    (hbad : f.data = .invalid) :
    ∃ msg, convert f tile = .error (.rustPanic msg) := by
  unfold convert
  rcases hfm : ImageFormat.from_mime_type f.file_type with _ | fmt
  · exact ⟨"called `Option::unwrap()` on a `None` value", by simp [hfm, unwrapOption]⟩
  · rw [hbad]
    exact ⟨"called `Result::unwrap()` on an `Err` value",
      by simp [hfm, unwrapOption, unwrapResult, load_from_memory_with_format]⟩

lemma convertLoop_error_of_mem (files : List FileDetails) (f : FileDetails)
    (tile : RasterImage) (hmem : f ∈ files) (hbad : f.data = .invalid) :
    ∃ e, convertLoop files tile = .error e := by
  induction files with
  | nil => cases hmem
  | cons g rest ih =>
    rcases List.mem_cons.mp hmem with heq | hmem2
    · obtain ⟨msg, hc⟩ := convert_invalid_errors g tile (heq ▸ hbad)
      exact ⟨.rustPanic msg, by simp [convertLoop, hc]⟩
    · rcases hcg : convert g tile with e | o
      · exact ⟨e, by simp [convertLoop, hcg]⟩
      · obtain ⟨e, he⟩ := ih hmem2
        exact ⟨e, by simp [convertLoop, hcg, he]⟩

/-- C6 (amended): a failing source image does not produce one isolated
per-item failure — the `unwrap` on its decode panics, which aborts the
whole `convert_files` batch, so every other source image in the batch is
denied output as well. -/
theorem convert_files_aborts_on_bad_item (files : List FileDetails) (f : FileDetails)
    (tfd : FileDetails) (hmem : f ∈ files) (hbad : f.data = .invalid) :
    ∃ e, Main.convert_files files (some tfd) false = .error e := by
  unfold Main.convert_files
  rcases hfm : unwrapOption (ImageFormat.from_mime_type tfd.file_type) with e | fmt
  · exact ⟨e, by simp [hfm]⟩
  · rcases hld : unwrapResult (load_from_memory_with_format tfd.data fmt) with e | tileImg
    · exact ⟨e, by simp [hfm, hld]⟩
    · obtain ⟨e, he⟩ := convertLoop_error_of_mem files f tileImg hmem hbad
      exact ⟨e, by simp [hfm, hld, he]⟩

/-- Witness for the amended C6: a batch whose second item is corrupt is
aborted wholesale. -/
theorem convert_files_aborts_on_bad_item_witness :
    ∃ e, Main.convert_files
      [⟨"ok.jpg", "image/jpeg", .encoded .jpeg ⟨1, 1, fun _ _ => ⟨5, 5, 5, 255⟩⟩⟩,
       ⟨"corrupt.jpg", "image/jpeg", .invalid⟩]
      (some ⟨"t2.png", "image/png", .encoded .png ⟨1, 1, fun _ _ => ⟨9, 0, 0, 255⟩⟩⟩)
      false = .error e :=
  convert_files_aborts_on_bad_item _ ⟨"corrupt.jpg", "image/jpeg", .invalid⟩ _
    (by simp) rfl

/-- Counterexample for C6 as stated: a two-item batch whose first item has
undecodable bytes.  The claim demands one reported per-item failure and an
unaffected output for the second, good item; the code instead panics and
the whole batch yields no `ConvertedFiles` message at all. -/
theorem batch_dies_on_bad_item_cex :
    Main.convert_files
      [⟨"bad.png", "image/png", .invalid⟩,
       ⟨"good.png", "image/png", .encoded .png ⟨1, 1, fun _ _ => ⟨0, 0, 255, 255⟩⟩⟩]
      (some ⟨"tile.png", "image/png", .encoded .png ⟨1, 1, fun _ _ => ⟨255, 0, 0, 255⟩⟩⟩)
      false =
    .error (.rustPanic "called `Result::unwrap()` on an `Err` value") := rfl

/-- C7 (amended): when the byte buffer is not a valid encoding of the
declared format, or the MIME type maps to no supported decoder, the loading
step of `convert` does not surface a recoverable `DecodeError` — the
`unwrap` panics (a crash), and no output is produced for that input. -/
theorem convert_load_failure_panics (f : FileDetails) (tile : RasterImage)
    (hbad : f.data = .invalid ∨ ImageFormat.from_mime_type f.file_type = none) :
    ∃ msg, convert f tile = .error (.rustPanic msg) := by
  rcases hbad with hbad | hnone
  · exact convert_invalid_errors f tile hbad
  · unfold convert
    rw [hnone]
    exact ⟨"called `Option::unwrap()` on a `None` value", by simp [unwrapOption]⟩

/-- Witness for the amended C7: concrete invalid PNG bytes make `convert`
panic. -/
theorem convert_load_failure_panics_witness :
    ∃ msg, convert ⟨"bad2.png", "image/png", .invalid⟩
      ⟨2, 2, fun _ _ => ⟨3, 3, 3, 255⟩⟩ = .error (.rustPanic msg) :=
  convert_load_failure_panics ⟨"bad2.png", "image/png", .invalid⟩
    ⟨2, 2, fun _ _ => ⟨3, 3, 3, 255⟩⟩ (Or.inl rfl)

/-- Counterexample for C7 as stated: an unsupported MIME type and an
undecodable buffer each end in a Rust panic, not in the recoverable
`DecodeError` the claim requires. -/
theorem loader_crashes_cex :
    convert ⟨"doc.pdf", "application/pdf", .encoded .png ⟨1, 1, fun _ _ => ⟨0, 0, 0, 255⟩⟩⟩
        ⟨1, 1, fun _ _ => ⟨1, 1, 1, 255⟩⟩ =
      .error (.rustPanic "called `Option::unwrap()` on a `None` value") ∧
    convert ⟨"broken.gif", "image/gif", .invalid⟩ ⟨1, 1, fun _ _ => ⟨1, 1, 1, 255⟩⟩ =
      .error (.rustPanic "called `Result::unwrap()` on an `Err` value") ∧
    Failure.rustPanic "called `Result::unwrap()` on an `Err` value" ≠ Failure.decodeError :=
  ⟨rfl, rfl, by decide⟩

/-- C8 (amended): an empty tile slot yields `Msg::NoOp` in both variants
and an undecodable tile yields `Msg::NoOp` in the app.rs variant and a
panic in the main.rs variant — in every case the batch is aborted with no
converted output for any source image.  It is not, however, the only
globally fatal condition (see the counterexample: a failing source decode
also aborts the whole batch). -/
theorem no_tile_aborts_batch :
    (∀ files c, App.convert_files files none c = .ok .noOp) ∧
    (∀ files name mime, App.convert_files files (some ⟨name, mime, .invalid⟩) false =
      .ok .noOp) ∧
    (∀ files c, Main.convert_files files none c = .ok .noOp) ∧
    (∀ files name mime, ∃ msg,
      Main.convert_files files (some ⟨name, mime, .invalid⟩) false =
        .error (.rustPanic msg)) := by
  refine ⟨fun files c => ?_, fun files name mime => rfl, fun files c => ?_,
    fun files name mime => ?_⟩
  · cases c <;> rfl
  · cases c <;> rfl
  · rcases hm : ImageFormat.from_mime_type mime with _ | fmt
    · exact ⟨"called `Option::unwrap()` on a `None` value",
        by simp [Main.convert_files, unwrapOption, hm]⟩
    · exact ⟨"called `Result::unwrap()` on an `Err` value",
        by simp [Main.convert_files, unwrapOption, hm,
          load_from_memory_with_format, unwrapResult]⟩

/-- Counterexample for C8's claim that a missing/undecodable tile is the
only globally fatal error: with a perfectly usable tile, one corrupt source
image still aborts the entire app.rs batch with a panic. -/
theorem tile_not_only_fatal_cex :
    App.convert_files
      [⟨"bad3.png", "image/png", .invalid⟩]
      (some ⟨"t3.png", "image/png", .encoded .png ⟨1, 1, fun _ _ => ⟨0, 255, 0, 255⟩⟩⟩)
      false =
    .error (.rustPanic "called `Result::unwrap()` on an `Err` value") := rfl
